import Mathlib

/-!
Shallow embedding of `src/twitter_pigeon_bot_live_mcap.py` (class
`PigeonMarketCapBot`) and proofs about its daily-posting state machine.

Modelling choices:
* Python floats are modelled as exact rationals (`ℚ`); the `:.2f` format
  specifier is modelled as rounding half-to-even at two decimal places.
* The HTTP fetch in `get_current_mcap` is modelled as a total function of an
  explicit `HttpOutcome` describing what the network/JSON layer did; every
  `except`-caught path is a `none` result.
* `post_daily_update` is modelled as a step function on a `World` holding the
  in-memory `self.data` (`mem`) and the persisted `bot_data.json` (`disk`),
  driven by an `Env` giving today's date, the fetch result, and whether
  `self.client.create_tweet` succeeds (raises no exception).
-/

namespace PigeonBot

/-- A JSON scalar as relevant to the fields the fetcher reads.  A string
carries `asNum`, the result Python's `float()` would give on it (`none` when
`float()` would raise `ValueError`). -/
inductive JVal where
  | jnum (q : ℚ)
  | jstr (s : String) (asNum : Option ℚ)
  | jnull
deriving DecidableEq, Repr

/-- Python truthiness of a JSON scalar: `0`, the empty string and `null`
are falsy. -/
def truthy : JVal → Bool
  | .jnum q => q ≠ 0
  | .jstr s _ => s ≠ ""
  | .jnull => false

/-- Python `float(v)`: `none` models a raised exception
(`ValueError` on a bad string, `TypeError` on `None`). -/
def pyFloat : JVal → Option ℚ
  | .jnum q => some q
  | .jstr _ a => a
  | .jnull => none

/-- The fields of one entry of the `pairs` list that `get_current_mcap`
reads.  `none` models an absent key; for `liquidity` the outer option is the
`liquidity` key, the inner one its `usd` sub-key. -/
structure DexPair where
  fdv : Option JVal
  priceUsd : Option JVal
  liquidity : Option (Option JVal)
deriving DecidableEq, Repr

/-- The parsed JSON body, as far as the condition
`data and 'pairs' in data and len(data['pairs']) > 0` distinguishes it. -/
inductive JBody where
  | falsy
  | noPairs
  | pairs (ps : List DexPair)
deriving DecidableEq, Repr

/-- Outcome of the HTTP layer inside `get_current_mcap`: `requests.get`
raised, `raise_for_status` raised, `response.json()` raised, or a parsed
body was obtained. -/
inductive HttpOutcome where
  | netError
  | badStatus
  | badJson
  | ok (body : JBody)
deriving DecidableEq, Repr

/-- The dict `get_current_mcap` returns on success. -/
structure McapData where
  mcap : ℚ
  price : ℚ
  liquidity : ℚ
  success : Bool
deriving DecidableEq, Repr

/-- `self.target_mcap = 941_000_000`. -/
def target_mcap : ℚ := 941000000

/-- The pattern `float(v) if v else 0` from `get_current_mcap`;
`none` models the exception path of `float`. -/
def convVal (v : JVal) : Option ℚ :=
  if truthy v then pyFloat v else some 0

/-- Building the result dict from the first pair, lines 64–76 of the source:
`pair.get('fdv', 0)`, `pair.get('priceUsd', '0')`,
`pair.get('liquidity', {}).get('usd', 0)` followed by the three guarded
`float` conversions.  A `none` result models a conversion raising, which the
surrounding `except` turns into a `None` return. -/
def pairRecord (p : DexPair) : Option McapData :=
  let mcap_str := p.fdv.getD (.jnum 0)
  let price := p.priceUsd.getD (.jstr ("0") (some 0))
  let liq := (p.liquidity.getD none).getD (.jnum 0)
  match convVal mcap_str, convVal price, convVal liq with
  | some m, some pr, some l => some ⟨m, pr, l, true⟩
  | _, _, _ => none

/-- `get_current_mcap`, lines 53–82 of the source, as a total function of the
HTTP outcome.  Every caught exception and every failed body check returns
`none` ("no data"). -/
def get_current_mcap : HttpOutcome → Option McapData
  | .netError => none
  | .badStatus => none
  | .badJson => none
  | .ok .falsy => none
  | .ok .noPairs => none
  | .ok (.pairs []) => none
  | .ok (.pairs (p :: _)) => pairRecord p

/-- Round the fraction `n / d` (with `d > 0`) to the nearest integer, ties to
even — the rounding of Python's fixed-point formatting on exact values.
`f` is the floor of the fraction and `r` its nonnegative remainder, so the
fractional part is `r / d`, compared against one half. -/
def roundHalfEven (n d : ℤ) : ℤ :=
  let f := n.fdiv d
  let r := n.fmod d
  if 2 * r < d then f
  else if d < 2 * r then f + 1
  else if f % 2 = 0 then f else f + 1

/-- Two-digit zero-padding for the fractional part. -/
def pad2 (n : ℕ) : String :=
  if n < 10 then "0" ++ toString n else toString n

/-- Python `f"{q/scale:.2f}"` on an exact rational value `q`: the exact
fraction `q / scale` is `q.num / (q.den * scale)`, which is rounded at two
decimals (round the hundredfold half-to-even) and rendered with sign,
integer part and two fractional digits. -/
def fmt2 (q : ℚ) (scale : ℕ) : String :=
  let n := roundHalfEven (100 * q.num) ((q.den : ℤ) * (scale : ℤ))
  if n < 0 then
    "-" ++ toString ((-n).toNat / 100) ++ "." ++ pad2 ((-n).toNat % 100)
  else
    toString (n.toNat / 100) ++ "." ++ pad2 (n.toNat % 100)

/-- `format_number`, lines 84–93 of the source; `fmt2 num s` renders
`f"{num/s:.2f}"` on the exact value of the division. -/
def format_number (num : ℚ) : String :=
  if num ≥ 1000000000 then "$" ++ fmt2 num 1000000000 ++ "B"
  else if num ≥ 1000000 then "$" ++ fmt2 num 1000000 ++ "M"
  else if num ≥ 1000 then "$" ++ fmt2 num 1000 ++ "K"
  else "$" ++ fmt2 num 1

/-- The persisted `self.data` dict / `bot_data.json` content. -/
structure BotState where
  day_count : ℕ
  start_date : String
  last_post_date : Option String
  reached_target : Bool
deriving DecidableEq, Repr

/-- The tweet text of line 114 of the source (target reached). -/
def reachedMsg (cmf : String) (dc : ℕ) : String :=
  "🎉 PIGEON HAS REACHED 941M MCAP! 🚀\n\nCurrent Market Cap: " ++ cmf ++
    "\n\nIt took " ++ toString dc ++ " days! LFG! 🐦💎"

/-- The tweet text of line 118 of the source (holding above target). -/
def holdingMsg (dc : ℕ) (cmf : String) : String :=
  "Day " ++ toString dc ++ " - Pigeon holding strong above 941M! 💪\n\nCurrent Market Cap: " ++
    cmf

/-- The tweet text of line 125 of the source (still under target). -/
def underMsg (dc : ℕ) (cmf : String) (rem : String) : String :=
  "Day " ++ toString dc ++ " of posting pigeon under 941M mcap\n\nCurrent: " ++ cmf ++
    "\nTarget: $941M\nTo go: " ++ rem ++ " 🐦"

/-- The fallback tweet text of line 129 of the source (API unavailable). -/
def fallbackMsg (dc : ℕ) : String :=
  "Day " ++ toString dc ++ " of posting pigeon under 941M mcap 🐦"

/-- Lines 105–130 of `post_daily_update`: from the fetch result, mutate
`self.data` (flip `reached_target`, or increment `day_count`) and build the
tweet text.  `if mcap_data and mcap_data['success']` selects the live-data
branch (a returned dict is truthy); otherwise the fallback branch runs. -/
def compose_and_update (s : BotState) (fetch : Option McapData) : BotState × String :=
  match fetch with
  | some md =>
    if md.success then
      let cmf := format_number md.mcap
      if target_mcap ≤ md.mcap ∧ s.reached_target = false then
        ({s with reached_target := true}, reachedMsg cmf s.day_count)
      else if target_mcap ≤ md.mcap then
        (s, holdingMsg s.day_count cmf)
      else
        let s1 := {s with day_count := s.day_count + 1}
        (s1, underMsg s1.day_count cmf (format_number (target_mcap - md.mcap)))
    else
      let s1 := {s with day_count := s.day_count + 1}
      (s1, fallbackMsg s1.day_count)
  | none =>
    let s1 := {s with day_count := s.day_count + 1}
    (s1, fallbackMsg s1.day_count)

/-- The bot's full state: the in-memory `self.data` and the persisted
`bot_data.json` file (written only by `save_data`). -/
structure World where
  mem : BotState
  disk : BotState
deriving DecidableEq, Repr

/-- The external inputs of one `post_daily_update` invocation: today's date
string (`datetime.now().strftime`), the result of `get_current_mcap`, and
whether `self.client.create_tweet` returns normally (`tweetOk = false`
models it raising, which the `except` clauses catch). -/
structure Env where
  today : String
  fetch : Option McapData
  tweetOk : Bool
deriving DecidableEq, Repr

/-- `post_daily_update`, lines 95–150 of the source.  Returns the new world
and the successfully posted tweet text (`none` when the same-day guard fired
or `create_tweet` raised).  On the guard path nothing changes; on a
successful post `last_post_date` is set to today and `save_data` rewrites the
file; when `create_tweet` raises, the `except` clause ends the call with the
in-memory mutations kept and the file untouched. -/
def post_daily_update (w : World) (e : Env) : World × Option String :=
  if w.mem.last_post_date = some e.today then (w, none)
  else
    let c := compose_and_update w.mem e.fetch
    if e.tweetOk then
      let s2 := {c.1 with last_post_date := some e.today}
      (⟨s2, s2⟩, some c.2)
    else
      (⟨c.1, w.disk⟩, none)

/-- A sequence of `post_daily_update` invocations. -/
def run (w : World) (es : List Env) : World :=
  es.foldl (fun w e => (post_daily_update w e).1) w

/-- Fixture: a fresh state, as `load_data` creates it on first run. -/
def w0 : World := ⟨⟨0, "2025-01-01", none, false⟩, ⟨0, "2025-01-01", none, false⟩⟩

/-- Fixture: an invocation whose fetch fails and whose tweet raises. -/
def envFail : Env := ⟨"2025-01-02", none, false⟩

/-- Fixture: an invocation whose fetch fails and whose tweet succeeds. -/
def envFallback : Env := ⟨"2025-01-02", none, true⟩

/-- Fixture: a successful fetch right at the target, tweet succeeds. -/
def envAtTarget : Env := ⟨"2025-01-02", some ⟨941000000, 1, 2, true⟩, true⟩

/-- Fixture: a successful fetch below the target, tweet succeeds. -/
def envBelow : Env := ⟨"2025-01-02", some ⟨500, 1, 2, true⟩, true⟩

theorem post_guard_eq (w : World) (e : Env)
    (h : w.mem.last_post_date = some e.today) :
    post_daily_update w e = (w, none) := by
  unfold post_daily_update
  simp [h]

theorem post_step (w : World) (e : Env)
    (hg : ¬ w.mem.last_post_date = some e.today) :
    post_daily_update w e =
      if e.tweetOk then
        (⟨{(compose_and_update w.mem e.fetch).1 with last_post_date := some e.today},
          {(compose_and_update w.mem e.fetch).1 with last_post_date := some e.today}⟩,
         some (compose_and_update w.mem e.fetch).2)
      else (⟨(compose_and_update w.mem e.fetch).1, w.disk⟩, none) := by
  unfold post_daily_update
  simp [hg]

theorem compose_last_post_date (s : BotState) (f : Option McapData) :
    (compose_and_update s f).1.last_post_date = s.last_post_date := by
  unfold compose_and_update
  cases f with
  | none => rfl
  | some md =>
    by_cases hs : md.success
    · by_cases hm : target_mcap ≤ md.mcap
      · rcases Bool.eq_false_or_eq_true s.reached_target with hr | hr
        · simp [hs, hm, hr]
        · simp [hs, hm, hr]
      · simp [hs, hm]
    · simp [hs]

theorem compose_day_count_le (s : BotState) (f : Option McapData) :
    (compose_and_update s f).1.day_count ≤ s.day_count + 1 := by
  unfold compose_and_update
  cases f with
  | none => simp
  | some md =>
    by_cases hs : md.success
    · by_cases hm : target_mcap ≤ md.mcap
      · rcases Bool.eq_false_or_eq_true s.reached_target with hr | hr
        · simp [hs, hm, hr]
        · simp [hs, hm, hr]
      · simp [hs, hm]
    · simp [hs]

theorem compose_reached_iff (s : BotState) (f : Option McapData) :
    ((compose_and_update s f).1.reached_target = true ↔
      s.reached_target = true ∨
        ∃ md, f = some md ∧ md.success = true ∧ target_mcap ≤ md.mcap) := by
  unfold compose_and_update
  cases f with
  | none => simp
  | some md =>
    by_cases hs : md.success
    · by_cases hm : target_mcap ≤ md.mcap
      · rcases Bool.eq_false_or_eq_true s.reached_target with hr | hr
        · simp [hs, hm, hr]
        · simp [hs, hm, hr]
      · simp [hs, hm]
    · simp [hs]

theorem run_cons (w : World) (e : Env) (es : List Env) :
    run w (e :: es) = run (post_daily_update w e).1 es := rfl

theorem run_guarded (w : World) (d : String) (es : List Env)
    (hall : ∀ e ∈ es, e.today = d) (h : w.mem.last_post_date = some d) :
    run w es = w := by
  induction es with
  | nil => rfl
  | cons e es ih =>
    have he : e.today = d := hall e (List.mem_cons_self e es)
    have hstep : post_daily_update w e = (w, none) :=
      post_guard_eq w e (by rw [he]; exact h)
    rw [run_cons, hstep]
    exact ih fun x hx => hall x (List.mem_cons_of_mem e hx)

/-- Claim C4, counterexample: the spec's example `950,000,000 → "$0.95B"` is
wrong on the code: `format_number` uses the `B` suffix only from one billion
upwards, so 950,000,000 falls into the `M` branch. -/
theorem format_number_claim_cex : format_number 950000000 ≠ "$0.95B" := by decide

/-- Claim C4, amended: `format_number` maps 950,000,000 to `"$950.00M"`,
1,200,000 to `"$1.20M"`, and 500 to `"$500.00"`. -/
theorem format_number_examples :
    format_number 950000000 = "$950.00M" ∧ format_number 1200000 = "$1.20M" ∧
      format_number 500 = "$500.00" := by decide

/-- Claim C1: if `last_post_date` already equals today, `post_daily_update`
returns at the guard, posting nothing and leaving the whole state (memory
and file) unchanged; and after an invocation that successfully posts on date
`d`, any further invocation on `d` is such a no-op, so two calls on the same
date yield exactly one post. -/
theorem post_twice_same_day (w : World) (d : String) (e₁ e₂ : Env)
    (h₁ : e₁.today = d) (h₂ : e₂.today = d) :
    (w.mem.last_post_date = some d → post_daily_update w e₁ = (w, none)) ∧
    (∀ t, (post_daily_update w e₁).2 = some t →
      post_daily_update (post_daily_update w e₁).1 e₂ =
        ((post_daily_update w e₁).1, none)) := by
  constructor
  · intro h
    exact post_guard_eq w e₁ (by rw [h₁]; exact h)
  · intro t ht
    by_cases hg : w.mem.last_post_date = some e₁.today
    · rw [post_guard_eq w e₁ hg] at ht
      exact absurd ht (by simp)
    · by_cases htw : e₁.tweetOk
      · apply post_guard_eq
        rw [post_step w e₁ hg]
        simp [htw, h₂, ← h₁]
      · rw [post_step w e₁ hg] at ht
        simp [htw] at ht

/-- Claim C1, witness: from a fresh state, a successful fallback post on
2025-01-02 makes a second call that day a no-op. -/
theorem post_twice_same_day_witness :
    post_daily_update (post_daily_update w0 envFallback).1 envFallback =
      ((post_daily_update w0 envFallback).1, none) :=
  (post_twice_same_day w0 "2025-01-02" envFallback envFallback rfl rfl).2
    (fallbackMsg 1) (by decide)

/-- Claim C2: with the guard passing, a successful fetch at or above the
target and `reached_target` still false, the composer emits the "target
reached" tweet (with the formatted market cap and the day count) and the
same step flips `reached_target` to true. -/
theorem target_reached_step (w : World) (e : Env) (md : McapData)
    (hg : w.mem.last_post_date ≠ some e.today)
    (hf : e.fetch = some md) (hs : md.success = true)
    (hm : target_mcap ≤ md.mcap) (hr : w.mem.reached_target = false) :
    compose_and_update w.mem e.fetch =
      ({w.mem with reached_target := true},
        reachedMsg (format_number md.mcap) w.mem.day_count) ∧
    (post_daily_update w e).1.mem.reached_target = true := by
  have hc : compose_and_update w.mem e.fetch =
      ({w.mem with reached_target := true},
        reachedMsg (format_number md.mcap) w.mem.day_count) := by
    rw [hf]
    unfold compose_and_update
    simp [hs, hm, hr]
  refine ⟨hc, ?_⟩
  rw [post_step w e hg]
  by_cases htw : e.tweetOk
  · simp [htw, hc]
  · simp [htw, hc]

/-- Claim C2, witness: a fetch exactly at 941,000,000 from a fresh state
flips `reached_target`. -/
theorem target_reached_step_witness :
    (post_daily_update w0 envAtTarget).1.mem.reached_target = true :=
  (target_reached_step w0 envAtTarget ⟨941000000, 1, 2, true⟩ (by decide) rfl rfl
    (by decide) rfl).2

/-- Claim C3: with the guard passing and a successful fetch strictly below
the target, `day_count` increments by exactly one and the composer emits the
"still under target" tweet with the formatted market cap, the `$941M`
target, and the remaining amount `target_mcap - mcap` formatted by
`format_number`. -/
theorem under_target_step (w : World) (e : Env) (md : McapData)
    (hg : w.mem.last_post_date ≠ some e.today)
    (hf : e.fetch = some md) (hs : md.success = true)
    (hm : md.mcap < target_mcap) :
    compose_and_update w.mem e.fetch =
      ({w.mem with day_count := w.mem.day_count + 1},
        underMsg (w.mem.day_count + 1) (format_number md.mcap)
          (format_number (target_mcap - md.mcap))) ∧
    (post_daily_update w e).1.mem.day_count = w.mem.day_count + 1 := by
  have hm' : ¬ target_mcap ≤ md.mcap := not_le.mpr hm
  have hc : compose_and_update w.mem e.fetch =
      ({w.mem with day_count := w.mem.day_count + 1},
        underMsg (w.mem.day_count + 1) (format_number md.mcap)
          (format_number (target_mcap - md.mcap))) := by
    rw [hf]
    unfold compose_and_update
    simp [hs, hm']
  refine ⟨hc, ?_⟩
  rw [post_step w e hg]
  by_cases htw : e.tweetOk
  · simp [htw, hc]
  · simp [htw, hc]

/-- Claim C3, witness: a fetch of 500 from a fresh state increments the day
count to one. -/
theorem under_target_step_witness :
    (post_daily_update w0 envBelow).1.mem.day_count = w0.mem.day_count + 1 :=
  (under_target_step w0 envBelow ⟨500, 1, 2, true⟩ (by decide) rfl rfl
    (by decide)).2

/-- Claim C7: when the fetch returns no data and the guard passes, the
fallback tweet is posted and `day_count` still increments by exactly one;
the step is a total function, so the process does not crash. -/
theorem fetch_failure_fallback (w : World) (e : Env)
    (hg : w.mem.last_post_date ≠ some e.today)
    (hf : e.fetch = none) (ht : e.tweetOk = true) :
    (post_daily_update w e).2 = some (fallbackMsg (w.mem.day_count + 1)) ∧
    (post_daily_update w e).1.mem.day_count = w.mem.day_count + 1 := by
  have hc : compose_and_update w.mem e.fetch =
      ({w.mem with day_count := w.mem.day_count + 1},
        fallbackMsg (w.mem.day_count + 1)) := by
    rw [hf]
    rfl
  rw [post_step w e hg]
  simp [ht, hc]

/-- Claim C7, witness: a failed fetch from a fresh state posts the fallback
tweet for day one. -/
theorem fetch_failure_fallback_witness :
    (post_daily_update w0 envFallback).2 =
        some (fallbackMsg (w0.mem.day_count + 1)) ∧
      (post_daily_update w0 envFallback).1.mem.day_count =
        w0.mem.day_count + 1 :=
  fetch_failure_fallback w0 envFallback (by decide) rfl rfl

/-- Claim C10: when `create_tweet` raises, `save_data` never runs, so the
persisted file is unchanged and nothing is posted; the in-memory mutations
made by the composer are kept, and `last_post_date` is not set, leaving the
in-memory state diverged from the persisted one. -/
theorem tweet_failure_keeps_disk (w : World) (e : Env)
    (hg : w.mem.last_post_date ≠ some e.today) (ht : e.tweetOk = false) :
    (post_daily_update w e).1.disk = w.disk ∧
    (post_daily_update w e).2 = none ∧
    (post_daily_update w e).1.mem = (compose_and_update w.mem e.fetch).1 ∧
    (post_daily_update w e).1.mem.last_post_date = w.mem.last_post_date := by
  rw [post_step w e hg]
  simp [ht, compose_last_post_date]

/-- Claim C10, witness: a failed tweet from a fresh state leaves the file
as it was while the in-memory day count has moved. -/
theorem tweet_failure_keeps_disk_witness :
    (post_daily_update w0 envFail).1.disk = w0.disk ∧
      (post_daily_update w0 envFail).2 = none ∧
      (post_daily_update w0 envFail).1.mem =
        (compose_and_update w0.mem envFail.fetch).1 ∧
      (post_daily_update w0 envFail).1.mem.last_post_date =
        w0.mem.last_post_date :=
  tweet_failure_keeps_disk w0 envFail (by decide) rfl

/-- Fixture: a state whose flag is already set. -/
def wReached : World := ⟨⟨3, "2025-01-01", none, true⟩, ⟨3, "2025-01-01", none, true⟩⟩

/-- Claim C5: `reached_target` is monotone and irreversible: over any
sequence of invocations a true flag stays true, and a single step ends with
the flag true exactly when it already was, or the guard passed and a
successful fetch observed a market cap at or above the target — so the
false-to-true transition happens at most once. -/
theorem reached_target_monotone :
    (∀ w es, w.mem.reached_target = true → (run w es).mem.reached_target = true) ∧
    (∀ w e, ((post_daily_update w e).1.mem.reached_target = true ↔
      w.mem.reached_target = true ∨
        (w.mem.last_post_date ≠ some e.today ∧
          ∃ md, e.fetch = some md ∧ md.success = true ∧ target_mcap ≤ md.mcap))) := by
  have hstep : ∀ w e, ((post_daily_update w e).1.mem.reached_target = true ↔
      w.mem.reached_target = true ∨
        (w.mem.last_post_date ≠ some e.today ∧
          ∃ md, e.fetch = some md ∧ md.success = true ∧ target_mcap ≤ md.mcap)) := by
    intro w e
    by_cases hg : w.mem.last_post_date = some e.today
    · rw [post_guard_eq w e hg]
      simp [hg]
    · rw [post_step w e hg]
      by_cases htw : e.tweetOk
      · simp [htw, hg, compose_reached_iff]
      · simp [htw, hg, compose_reached_iff]
  refine ⟨?_, hstep⟩
  intro w es
  induction es generalizing w with
  | nil => exact fun h => h
  | cons e es ih =>
    intro h
    rw [run_cons]
    exact ih _ ((hstep w e).mpr (Or.inl h))

/-- Claim C5, witness: a set flag survives an invocation whose fetch and
tweet both fail. -/
theorem reached_target_monotone_witness :
    (run wReached [envFail]).mem.reached_target = true :=
  reached_target_monotone.1 wReached [envFail] rfl

/-- Claim C6, counterexample: two invocations on the same calendar day whose
`create_tweet` raises each increment `day_count`; the guard never fires
because `last_post_date` is only set after a successful post, so `day_count`
rises by two in one day. -/
theorem day_count_per_day_cex :
    ¬ ((run w0 [envFail, envFail]).mem.day_count ≤ w0.mem.day_count + 1) := by
  decide

/-- Claim C6, amended: for every calendar day and every sequence of
invocations on that day in which the posting call does not raise,
`day_count` increases by at most one during that day. -/
theorem day_count_at_most_one_per_day (w : World) (d : String) (es : List Env)
    (hall : ∀ e ∈ es, e.today = d ∧ e.tweetOk = true) :
    (run w es).mem.day_count ≤ w.mem.day_count + 1 := by
  induction es generalizing w with
  | nil => simp [run]
  | cons e es ih =>
    have he := hall e (List.mem_cons_self e es)
    have htail : ∀ x ∈ es, x.today = d ∧ x.tweetOk = true :=
      fun x hx => hall x (List.mem_cons_of_mem e hx)
    by_cases hg : w.mem.last_post_date = some e.today
    · rw [run_cons, post_guard_eq w e hg]
      exact ih w htail
    · rw [run_cons, post_step w e hg, he.2, if_pos rfl]
      rw [run_guarded _ d es (fun x hx => (htail x hx).1) (by simp [he.1])]
      simpa using compose_day_count_le w.mem e.fetch

/-- Claim C6, witness: two same-day invocations that both post successfully
leave the day count at one. -/
theorem day_count_at_most_one_per_day_witness :
    (run w0 [envFallback, envFallback]).mem.day_count ≤ w0.mem.day_count + 1 :=
  day_count_at_most_one_per_day w0 "2025-01-02" [envFallback, envFallback]
    (by decide)

theorem pairRecord_success (p : DexPair) (r : McapData)
    (h : pairRecord p = some r) : r.success = true := by
  simp only [pairRecord] at h
  cases h1 : convVal (p.fdv.getD (.jnum 0)) with
  | none => rw [h1] at h; exact absurd h (by simp)
  | some m =>
    cases h2 : convVal (p.priceUsd.getD (.jstr ("0") (some 0))) with
    | none => rw [h1, h2] at h; exact absurd h (by simp)
    | some pr =>
      cases h3 : convVal ((p.liquidity.getD none).getD (.jnum 0)) with
      | none => rw [h1, h2, h3] at h; exact absurd h (by simp)
      | some l =>
        rw [h1, h2, h3] at h
        have hr := Option.some.inj h
        rw [← hr]

/-- Fixture: the first pair of a response whose three fields are all
absent. -/
def pNone : DexPair := ⟨none, none, none⟩

/-- Claim C8: `get_current_mcap` never raises: it is a total function that
returns `none` on every failing HTTP outcome (network error, bad status,
malformed JSON, falsy body, missing or empty pair list), and any success
record it returns has `success = true` and is extracted from the first pair
of a non-empty `pairs` list. -/
theorem get_current_mcap_no_raise :
    (get_current_mcap .netError = none ∧ get_current_mcap .badStatus = none ∧
      get_current_mcap .badJson = none ∧ get_current_mcap (.ok .falsy) = none ∧
      get_current_mcap (.ok .noPairs) = none ∧
      get_current_mcap (.ok (.pairs [])) = none) ∧
    (∀ o r, get_current_mcap o = some r →
      r.success = true ∧
        ∃ p ps, o = .ok (.pairs (p :: ps)) ∧ pairRecord p = some r) := by
  refine ⟨⟨rfl, rfl, rfl, rfl, rfl, rfl⟩, ?_⟩
  intro o r h
  cases o with
  | netError => exact absurd h (by simp [get_current_mcap])
  | badStatus => exact absurd h (by simp [get_current_mcap])
  | badJson => exact absurd h (by simp [get_current_mcap])
  | ok body =>
    cases body with
    | falsy => exact absurd h (by simp [get_current_mcap])
    | noPairs => exact absurd h (by simp [get_current_mcap])
    | pairs ps =>
      cases ps with
      | nil => exact absurd h (by simp [get_current_mcap])
      | cons p ps => exact ⟨pairRecord_success p r h, p, ps, rfl, h⟩

/-- Claim C8, witness: a response whose first pair has no fields succeeds
with all values zero. -/
theorem get_current_mcap_no_raise_witness :
    (⟨0, 0, 0, true⟩ : McapData).success = true ∧
      ∃ p ps,
        HttpOutcome.ok (.pairs [pNone]) = HttpOutcome.ok (.pairs (p :: ps)) ∧
          pairRecord p = some ⟨0, 0, 0, true⟩ :=
  get_current_mcap_no_raise.2 (.ok (.pairs [pNone])) ⟨0, 0, 0, true⟩ (by decide)

/-- Claim C9, counterexample: a first pair with `fdv` absent but an
unparseable `priceUsd` string makes `float(price)` raise, so the fetcher
returns no data instead of a success record with `mcap = 0`. -/
theorem falsy_fdv_claim_cex :
    (⟨none, some (.jstr ("abc") none), none⟩ : DexPair).fdv = none ∧
      get_current_mcap
        (.ok (.pairs [⟨none, some (.jstr ("abc") none), none⟩])) = none := by
  decide

/-- Claim C9, amended: when the first pair exists, its `fdv` field is
missing or falsy, and its `priceUsd` and `liquidity.usd` conversions go
through without error, the fetcher returns a success record with `mcap = 0`;
the post routine then treats it as a real observation below the target:
`day_count` increments and the "still under target" tweet is posted with the
remaining amount equal to the full target. -/
theorem falsy_fdv_zero_mcap (p : DexPair) (ps : List DexPair) (pr li : ℚ)
    (w : World) (e : Env)
    (hfdv : p.fdv = none ∨ ∃ v, p.fdv = some v ∧ truthy v = false)
    (hp : convVal (p.priceUsd.getD (.jstr ("0") (some 0))) = some pr)
    (hl : convVal ((p.liquidity.getD none).getD (.jnum 0)) = some li)
    (hfetch : e.fetch = get_current_mcap (.ok (.pairs (p :: ps))))
    (hg : w.mem.last_post_date ≠ some e.today) (ht : e.tweetOk = true) :
    get_current_mcap (.ok (.pairs (p :: ps))) = some ⟨0, pr, li, true⟩ ∧
    (post_daily_update w e).1.mem.day_count = w.mem.day_count + 1 ∧
    (post_daily_update w e).2 =
      some (underMsg (w.mem.day_count + 1) (format_number 0)
        (format_number target_mcap)) := by
  have hm : convVal (p.fdv.getD (.jnum 0)) = some 0 := by
    rcases hfdv with h | ⟨v, hv, htr⟩
    · rw [h]
      rfl
    · rw [hv]
      simp [convVal, htr]
  have hget : get_current_mcap (.ok (.pairs (p :: ps))) = some ⟨0, pr, li, true⟩ := by
    show pairRecord p = some ⟨0, pr, li, true⟩
    simp only [pairRecord]
    rw [hm, hp, hl]
  have hmd : e.fetch = some ⟨0, pr, li, true⟩ := by rw [hfetch, hget]
  have hlt : (0 : ℚ) < target_mcap := by norm_num [target_mcap]
  have hall := under_target_step w e ⟨0, pr, li, true⟩ hg hmd rfl hlt
  refine ⟨hget, hall.2, ?_⟩
  rw [post_step w e hg, if_pos ht, hall.1]
  have : target_mcap - (0 : ℚ) = target_mcap := sub_zero target_mcap
  rw [this]

/-- Fixture: an invocation carrying the all-zero success record. -/
def envZero : Env := ⟨"2025-01-02", some ⟨0, 0, 0, true⟩, true⟩

/-- Claim C9, witness: the all-absent first pair yields the zero record,
day one, and the under-target tweet with the full target to go. -/
theorem falsy_fdv_zero_mcap_witness :
    get_current_mcap (.ok (.pairs [pNone])) = some ⟨0, 0, 0, true⟩ ∧
      (post_daily_update w0 envZero).1.mem.day_count = w0.mem.day_count + 1 ∧
      (post_daily_update w0 envZero).2 =
        some (underMsg (w0.mem.day_count + 1) (format_number 0)
          (format_number target_mcap)) :=
  falsy_fdv_zero_mcap pNone [] 0 0 w0 envZero (Or.inl rfl) (by decide) (by decide)
    (by decide) (by decide) rfl

end PigeonBot
